import Mathlib

namespace StreamTextModel

/- Shallow embedding of the streaming text-generation engine found in the
   repository source file src/examples/next-lmnt/app/api/completion/route.ts
   (the inlined stream-text module: streamText, DefaultStreamTextResult,
   createTransformedStream), together with its data-stream serialization and
   HTTP response header logic. Streams are embedded as lists of parts; one
   provider call (a roundtrip) yields a list of parts, and a whole run is a
   function from roundtrip ordinals to part lists, abstracting the composition
   of model.doStream with the tool transformation. -/

/-- JavaScript number used for token usage counts: the not-a-number sentinel
or an actual count. The flush fallback usage in the source is
promptTokens NaN, completionTokens NaN, totalTokens NaN. -/
inductive JsNum
  | nan
  | num (n : Nat)
deriving DecidableEq

/-- Token usage record, as in the CompletionTokenUsage type of the source. -/
structure CompletionTokenUsage where
  promptTokens : JsNum
  completionTokens : JsNum
  totalTokens : JsNum
deriving DecidableEq

/-- Sentinel usage produced on flush when no finish part was observed. -/
def nanUsage : CompletionTokenUsage := ⟨JsNum.nan, JsNum.nan, JsNum.nan⟩

/-- A tool call part payload (ToToolCall in the source). -/
structure ToolCallPart where
  toolCallId : String
  toolName : String
  args : String
deriving DecidableEq

/-- A tool result part payload (ToToolResult in the source). -/
structure ToolResultPart where
  toolCallId : String
  toolName : String
  args : String
  result : String
deriving DecidableEq

/-- The tagged union of stream parts (TextStreamPart in the source). Finish
reasons and metadata are embedded as strings. -/
inductive TextStreamPart
  | textDelta (textDelta : String)
  | toolCall (call : ToolCallPart)
  | toolCallStreamingStart (toolCallId toolName : String)
  | toolCallDelta (toolCallId argsTextDelta : String)
  | toolResult (res : ToolResultPart)
  | finish (finishReason : String) (usage : CompletionTokenUsage)
      (providerMetadata : Option String)
  | error (cause : String)
deriving DecidableEq

/-- Modelled from the spec: createResolvablePromise is not under src/. Per the
spec (section 4.1) a resolvable future is single-assignment: calling the
resolver again after the first call is a no-op, the first write wins. A cell
is none while pending and some v once resolved. -/
def resolveCell {α : Type} (cell : Option α) (v : α) : Option α :=
  match cell with
  | none => some v
  | some w => some w

/-- The six aggregate future cells created in the DefaultStreamTextResult
constructor: usage, finishReason, text, toolCalls, toolResults and
experimental providerMetadata. -/
structure Futures where
  usage : Option CompletionTokenUsage
  finishReason : Option String
  text : Option String
  toolCalls : Option (List ToolCallPart)
  toolResults : Option (List ToolResultPart)
  providerMetadata : Option (Option String)
deriving DecidableEq

/-- All six aggregate futures start out pending. -/
def Futures.init : Futures := ⟨none, none, none, none, none, none⟩

/-- The per-roundtrip local state of createTransformedStream: the mutable
variables finishReason, usage, providerMetadata, toolCalls, toolResults and
text declared before the TransformStream. -/
structure RoundtripAcc where
  finishReason : Option String
  usage : Option CompletionTokenUsage
  providerMetadata : Option String
  toolCalls : List ToolCallPart
  toolResults : List ToolResultPart
  text : String
deriving DecidableEq

/-- Fresh per-roundtrip state. -/
def RoundtripAcc.init : RoundtripAcc := ⟨none, none, none, [], [], ""⟩

/-- The guard of the transform: a text-delta whose payload has length zero is
filtered out (source: chunk.type text-delta and chunk.textDelta.length 0). -/
def isEmptyTextDelta : TextStreamPart → Bool
  | TextStreamPart.textDelta s => s.length == 0
  | _ => false

/-- Extracts the finish payload of a part, none for every other part. -/
def finishInfo? : TextStreamPart → Option (String × CompletionTokenUsage × Option String)
  | TextStreamPart.finish r u m => some (r, u, m)
  | _ => none

/-- First finish payload of a part list, if any. -/
def firstFinishInfo : List TextStreamPart → Option (String × CompletionTokenUsage × Option String)
  | [] => none
  | p :: ps =>
    match finishInfo? p with
    | some v => some v
    | none => firstFinishInfo ps

/-- Whether a part list contains a finish part at all. -/
def hasFinish (parts : List TextStreamPart) : Bool :=
  parts.any (fun p => (finishInfo? p).isSome)

/-- The parts strictly before the first finish part: the chunks whose
contributions are already folded into the local accumulator when the transform
processes the first finish part and captures text and toolCalls. -/
def prefixToFirstFinish : List TextStreamPart → List TextStreamPart
  | [] => []
  | p :: ps =>
    match finishInfo? p with
    | some _ => []
    | none => p :: prefixToFirstFinish ps

/-- What a single chunk contributes to the downstream sequence: nothing if it
is an empty text-delta (the guard returns before enqueue), otherwise the chunk
itself (controller.enqueue runs for every other part, including error). -/
def outChunk (chunk : TextStreamPart) : List TextStreamPart :=
  if isEmptyTextDelta chunk then [] else [chunk]

/-- How a single chunk updates the per-roundtrip local state, following the
switch in the transform: text-delta concatenates text, tool-call and
tool-result append, finish stores usage, finishReason and providerMetadata,
the rest change nothing. The guard skips empty text-deltas entirely. -/
def accChunk (acc : RoundtripAcc) (chunk : TextStreamPart) : RoundtripAcc :=
  if isEmptyTextDelta chunk then acc
  else
    match chunk with
    | TextStreamPart.textDelta s => { acc with text := acc.text ++ s }
    | TextStreamPart.toolCall c => { acc with toolCalls := acc.toolCalls ++ [c] }
    | TextStreamPart.toolResult r => { acc with toolResults := acc.toolResults ++ [r] }
    | TextStreamPart.finish reason u m =>
        { acc with finishReason := some reason, usage := some u, providerMetadata := m }
    | _ => acc

/-- How a single chunk updates the aggregate future cells: on a finish part
the transform immediately resolves usage, finishReason, text, toolCalls and
providerMetadata with the values accumulated so far (source comment: resolve
promises that can be resolved now); the toolResults cell is never touched by
the transform. No other chunk touches any cell. -/
def futChunk (acc : RoundtripAcc) (fut : Futures) (chunk : TextStreamPart) : Futures :=
  match chunk with
  | TextStreamPart.finish reason u m =>
      { usage := resolveCell fut.usage u
        finishReason := resolveCell fut.finishReason reason
        text := resolveCell fut.text acc.text
        toolCalls := resolveCell fut.toolCalls acc.toolCalls
        toolResults := fut.toolResults
        providerMetadata := resolveCell fut.providerMetadata m }
  | _ => fut

/-- State threaded through the transform of one roundtrip: the local
accumulator, the shared future cells, and the parts enqueued downstream. -/
structure TransformState where
  acc : RoundtripAcc
  fut : Futures
  out : List TextStreamPart
deriving DecidableEq

/-- One step of the transform callback of createTransformedStream. -/
def transformChunk (st : TransformState) (chunk : TextStreamPart) : TransformState :=
  { acc := accChunk st.acc chunk
    fut := futChunk st.acc st.fut chunk
    out := st.out ++ outChunk chunk }

/-- Processing a whole roundtrip part list through the transform callback. -/
def transformChunks (parts : List TextStreamPart) (st : TransformState) : TransformState :=
  parts.foldl transformChunk st

/-- The per-roundtrip accumulator produced by a part list from a fresh state.
This is exactly the acc component of transformChunks (see the lemma
transformChunks_acc below). -/
def roundtripAcc (parts : List TextStreamPart) : RoundtripAcc :=
  parts.foldl accChunk RoundtripAcc.init

/-- The continuation predicate evaluated on flush: there are tool calls, the
number of tool results equals the number of tool calls, and the current
roundtrip ordinal is strictly below maxToolRoundtrips. -/
def shouldContinue (acc : RoundtripAcc) (currentToolRoundtrip maxToolRoundtrips : Nat) : Bool :=
  decide (0 < acc.toolCalls.length) &&
  decide (acc.toolResults.length = acc.toolCalls.length) &&
  decide (currentToolRoundtrip < maxToolRoundtrips)

/-- The event passed to the terminal onFinish callback. -/
structure FinishEvent where
  finishReason : String
  usage : CompletionTokenUsage
  text : String
  toolCalls : List ToolCallPart
  toolResults : List ToolResultPart
  providerMetadata : Option String
deriving DecidableEq

/-- The onFinish payload built on flush: usage falls back to the NaN sentinel
and finishReason to "unknown" when the roundtrip never saw a finish part. -/
def finishEventOf (acc : RoundtripAcc) : FinishEvent :=
  { finishReason := acc.finishReason.getD "unknown"
    usage := acc.usage.getD nanUsage
    text := acc.text
    toolCalls := acc.toolCalls
    toolResults := acc.toolResults
    providerMetadata := acc.providerMetadata }

/-- Observable state of a whole run: the shared future cells, the stitched
output sequence (Modelled from the spec where createStitchableStream is not
under src/: the stitchable stream drains its inputs strictly in append order,
so the stitched output is the concatenation of the roundtrip outputs), the
onFinish invocations, the number of provider calls issued, and whether the
stitchable stream was closed. -/
structure RunState where
  futures : Futures
  out : List TextStreamPart
  onFinishEvents : List FinishEvent
  providerCalls : Nat
  stitchClosed : Bool
deriving DecidableEq

/-- Initial run state: all futures pending, nothing emitted, no calls yet. -/
def RunState.init : RunState := ⟨Futures.init, [], [], 0, false⟩

/-- Issuing one provider call and streaming its roundtrip through the
transform: the future cells are threaded through, the transformed output is
appended to the stitchable stream, and the provider call counter grows. -/
def nextRunState (script : Nat → List TextStreamPart) (current : Nat) (st : RunState) : RunState :=
  let ts := transformChunks (script current) ⟨RoundtripAcc.init, st.futures, []⟩
  ⟨ts.fut, st.out ++ ts.out, st.onFinishEvents, st.providerCalls + 1, st.stitchClosed⟩

/-- The terminal branch of the flush: close the stitchable stream, resolve the
toolResults future with the tool results of the current roundtrip, and invoke
the onFinish callback with the snapshot of the current roundtrip. Only the
toolResults cell is resolved here. -/
def terminalRunState (script : Nat → List TextStreamPart) (current : Nat) (st : RunState) :
    RunState :=
  let st1 := nextRunState script current st
  ⟨⟨st1.futures.usage, st1.futures.finishReason, st1.futures.text, st1.futures.toolCalls,
      resolveCell st1.futures.toolResults ((roundtripAcc (script current)).toolResults),
      st1.futures.providerMetadata⟩,
    st1.out,
    st1.onFinishEvents ++ [finishEventOf (roundtripAcc (script current))],
    st1.providerCalls,
    true⟩

/-- The orchestration recursion of createTransformedStream: process the current
roundtrip through the transform, then on flush either start the next roundtrip
(when shouldContinue holds) or close the stitchable stream, resolve the
toolResults future and invoke onFinish. Each invocation models one provider
call. The fuel argument makes the recursion structural; runStreamText supplies
maxToolRoundtrips plus one units, which is enough because continuing requires
current strictly below maxToolRoundtrips. The per-roundtrip accumulator used
on flush is written roundtripAcc (script current); by the lemma
transformChunks_acc this is exactly the acc component of the transform. -/
def runFuel : Nat → (Nat → List TextStreamPart) → Nat → Nat → RunState → RunState
  | 0, _, _, _, st => st
  | fuel + 1, script, maxR, current, st =>
    if shouldContinue (roundtripAcc (script current)) current maxR then
      runFuel fuel script maxR (current + 1) (nextRunState script current st)
    else
      terminalRunState script current st

/-- A whole streamText run: roundtrip 0 is issued by streamText itself and
handed to createTransformedStream with currentToolRoundtrip 0. -/
def runStreamText (script : Nat → List TextStreamPart) (maxToolRoundtrips : Nat) : RunState :=
  runFuel (maxToolRoundtrips + 1) script maxToolRoundtrips 0 RunState.init

/-- Default of the maxToolRoundtrips option of streamText when omitted. -/
def maxToolRoundtripsDefault : Nat := 0

/-- The result facade state: DefaultStreamTextResult keeps the private field
originalStream, replaced on every teeStream call. -/
structure FacadeState where
  originalStream : List TextStreamPart
deriving DecidableEq

/-- The teeStream method: tee the original stream, hand out the first branch
and keep the second branch as the new original stream. The WHATWG tee
primitive delivers every chunk of the source to both branches, which on pure
lists is duplication. -/
def teeStream (f : FacadeState) : List TextStreamPart × FacadeState :=
  (f.originalStream, ⟨f.originalStream⟩)

/-- The textStream view transform: a text-delta part emits its payload, an
error part raises the cause (ending the view, nothing later is emitted), and
every other part is skipped. Result: the emitted payload list together with
the raised cause, if any. -/
def textStreamView : List TextStreamPart → List String × Option String
  | [] => ([], none)
  | p :: rest =>
    match p with
    | TextStreamPart.textDelta s =>
        (s :: (textStreamView rest).1, (textStreamView rest).2)
    | TextStreamPart.toolCall _ => textStreamView rest
    | TextStreamPart.toolCallStreamingStart _ _ => textStreamView rest
    | TextStreamPart.toolCallDelta _ _ => textStreamView rest
    | TextStreamPart.toolResult _ => textStreamView rest
    | TextStreamPart.finish _ _ _ => textStreamView rest
    | TextStreamPart.error c => ([], some c)

/-- The textStream getter: tee, then apply the view transform to the branch. -/
def textStreamOf (f : FacadeState) : (List String × Option String) × FacadeState :=
  let t := teeStream f
  (textStreamView t.1, t.2)

/-- The fullStream getter: tee, the transform enqueues every chunk as is. -/
def fullStreamOf (f : FacadeState) : List TextStreamPart × FacadeState :=
  teeStream f

/-- Payload extractor for text-delta parts. -/
def textDeltaPayload? : TextStreamPart → Option String
  | TextStreamPart.textDelta s => some s
  | _ => none

/-- Cause extractor for error parts. -/
def errorCause? : TextStreamPart → Option String
  | TextStreamPart.error c => some c
  | _ => none

/-- Whether a part is an error part. -/
def isErrorPart (p : TextStreamPart) : Bool := (errorCause? p).isSome

/-- Structured payload of one wire record of the data-stream encoding. -/
inductive DataStreamPayload
  | text (textDelta : String)
  | toolCallStreamingStartP (toolCallId toolName : String)
  | toolCallDeltaP (toolCallId argsTextDelta : String)
  | toolCallP (toolCallId toolName args : String)
  | toolResultP (toolCallId result : String)
  | errorMessage (message : String)
  | finishMessage (finishReason : String) (promptTokens completionTokens : JsNum)
deriving DecidableEq

/-- Modelled from the spec: the formatStreamPart wire encoder is not under
src/. Per the spec (section 6) each part is serialized as one record carrying
a type code and a JSON payload; the model keeps the record structured as the
pair of the type code and the payload. -/
def formatStreamPart (code : String) (payload : DataStreamPayload) : String × DataStreamPayload :=
  (code, payload)

/-- The switch of the streamPartsTransformer in toDataStream, one record per
part, with the error message produced by the getErrorMessage function. -/
def serializeRecord (getErrorMessage : String → String) :
    TextStreamPart → String × DataStreamPayload
  | TextStreamPart.textDelta s => formatStreamPart "text" (DataStreamPayload.text s)
  | TextStreamPart.toolCallStreamingStart id name =>
      formatStreamPart "tool_call_streaming_start"
        (DataStreamPayload.toolCallStreamingStartP id name)
  | TextStreamPart.toolCallDelta id d =>
      formatStreamPart "tool_call_delta" (DataStreamPayload.toolCallDeltaP id d)
  | TextStreamPart.toolCall c =>
      formatStreamPart "tool_call"
        (DataStreamPayload.toolCallP c.toolCallId c.toolName c.args)
  | TextStreamPart.toolResult r =>
      formatStreamPart "tool_result" (DataStreamPayload.toolResultP r.toolCallId r.result)
  | TextStreamPart.error cause =>
      formatStreamPart "error" (DataStreamPayload.errorMessage (getErrorMessage cause))
  | TextStreamPart.finish reason u _ =>
      formatStreamPart "finish_message"
        (DataStreamPayload.finishMessage reason u.promptTokens u.completionTokens)

/-- The toDataStream serialization: when the caller supplies no getErrorMessage
function, the destructuring default of the source applies, which maps every
error to the empty string (mask error messages for safety by default). -/
def toDataStream (getErrorMessage? : Option (String → String))
    (parts : List TextStreamPart) : List (String × DataStreamPayload) :=
  parts.map (serializeRecord (getErrorMessage?.getD (fun _ => "")))

/-- Caller-supplied response init data for the HTTP adapters. -/
structure ResponseInitModel where
  headers : Option (List (String × String))
  status : Option Nat
  statusText : Option String

/-- JavaScript object spread for header objects: keys of the base keep their
position but are overridden by the extra object, then keys only in the extra
object follow. -/
def spreadMerge (base extra : List (String × String)) : List (String × String) :=
  base.map (fun kv =>
    match extra.lookup kv.1 with
    | some v => (kv.1, v)
    | none => kv) ++
  extra.filter (fun kv => (base.lookup kv.1).isNone)

/-- The headers written by pipeDataStreamToResponse via response.writeHead:
a Content-Type entry spread together with the caller headers, nothing else. -/
def pipeDataStreamHeaders (init : Option ResponseInitModel) : List (String × String) :=
  spreadMerge [("Content-Type", "text/plain; charset=utf-8")]
    ((init.bind ResponseInitModel.headers).getD [])

/-- The status written by pipeDataStreamToResponse, defaulting to 200. -/
def pipeDataStreamStatus (init : Option ResponseInitModel) : Nat :=
  (init.bind ResponseInitModel.status).getD 200

/-- Name of the header identifying the data-stream encoding version. -/
def dataStreamVersionHeaderName : String := "X-Vercel-AI-Data-Stream"

/-- Modelled from the spec: the prepareResponseHeaders helper is not under
src/. Per the spec (section 6) a data-stream response carries the Content-Type
of the encoding and a version header identifying the encoding version; the
helper adds the content type unless the caller already set one, and adds the
version header when a dataStreamVersion is supplied. -/
def prepareResponseHeaders (initHeaders : Option (List (String × String)))
    (contentType : String) (dataStreamVersion : Option String) : List (String × String) :=
  let base := initHeaders.getD []
  let withCT :=
    if (base.lookup "Content-Type").isSome then base
    else base ++ [("Content-Type", contentType)]
  match dataStreamVersion with
  | some v => withCT ++ [(dataStreamVersionHeaderName, v)]
  | none => withCT

/-- The headers of the Response built by toDataStreamResponse: the source
passes contentType text/plain charset utf-8 and dataStreamVersion v1. -/
def toDataStreamResponseHeaders (initHeaders : Option (List (String × String))) :
    List (String × String) :=
  prepareResponseHeaders initHeaders "text/plain; charset=utf-8" (some "v1")

/-- Example run: roundtrip 0 performs one tool call with a result and finishes
with reason tool-calls, roundtrip 1 streams text and finishes with stop. -/
def exScript1 : Nat → List TextStreamPart := fun r =>
  if r = 0 then
    [TextStreamPart.toolCall ⟨"call-1", "weather", "london"⟩,
     TextStreamPart.toolResult ⟨"call-1", "weather", "london", "sunny"⟩,
     TextStreamPart.finish "tool-calls" ⟨JsNum.num 1, JsNum.num 1, JsNum.num 2⟩ none]
  else if r = 1 then
    [TextStreamPart.textDelta "Hello",
     TextStreamPart.finish "stop" ⟨JsNum.num 10, JsNum.num 5, JsNum.num 15⟩ none]
  else []

/-- Example run whose only roundtrip ends after an error part with no finish
part, as for a stream that errored before any finish. -/
def exScript2 : Nat → List TextStreamPart := fun r =>
  if r = 0 then [TextStreamPart.textDelta "a", TextStreamPart.error "boom"] else []

/-- Resolving a pending cell stores the value. -/
theorem resolveCell_none {α : Type} (v : α) : resolveCell none v = some v := rfl

/-- Resolving an already resolved cell is a no-op: the first write wins. -/
theorem resolveCell_some {α : Type} (w v : α) : resolveCell (some w) v = some w := rfl

/-- The transform never touches the toolResults future cell. -/
theorem futChunk_toolResults (acc : RoundtripAcc) (fut : Futures) (p : TextStreamPart) :
    (futChunk acc fut p).toolResults = fut.toolResults := by
  cases p <;> rfl

/-- A chunk that is not a finish part leaves all future cells unchanged. -/
theorem futChunk_of_no_finish (acc : RoundtripAcc) (fut : Futures) (p : TextStreamPart)
    (h : finishInfo? p = none) : futChunk acc fut p = fut := by
  cases p <;> first
    | rfl
    | simp [finishInfo?] at h

/-- A resolved usage cell stays resolved with the same value across a chunk. -/
theorem futChunk_usage_of_some (acc : RoundtripAcc) (fut : Futures) (p : TextStreamPart)
    (w : CompletionTokenUsage) (h : fut.usage = some w) :
    (futChunk acc fut p).usage = some w := by
  cases p <;> try exact h
  show resolveCell fut.usage _ = some w
  rw [h]
  exact resolveCell_some w _

/-- A resolved finishReason cell stays resolved with the same value. -/
theorem futChunk_finishReason_of_some (acc : RoundtripAcc) (fut : Futures) (p : TextStreamPart)
    (w : String) (h : fut.finishReason = some w) :
    (futChunk acc fut p).finishReason = some w := by
  cases p <;> try exact h
  show resolveCell fut.finishReason _ = some w
  rw [h]
  exact resolveCell_some w _

/-- Unfolding the transform over a cons. -/
theorem transformChunks_cons (p : TextStreamPart) (ps : List TextStreamPart)
    (st : TransformState) :
    transformChunks (p :: ps) st = transformChunks ps (transformChunk st p) := rfl

/-- The accumulator component of the transform depends only on the parts: it
is the fold of accChunk. -/
theorem transformChunks_acc (parts : List TextStreamPart) :
    ∀ st : TransformState, (transformChunks parts st).acc = parts.foldl accChunk st.acc := by
  induction parts with
  | nil => intro st; rfl
  | cons p ps ih =>
    intro st
    rw [transformChunks_cons, ih]
    rfl

/-- From a fresh accumulator, the transform computes roundtripAcc. -/
theorem transformChunks_acc_init (parts : List TextStreamPart) (fut : Futures)
    (out : List TextStreamPart) :
    (transformChunks parts ⟨RoundtripAcc.init, fut, out⟩).acc = roundtripAcc parts := by
  rw [transformChunks_acc]
  rfl

/-- The transform forwards exactly the parts that are not empty text-deltas,
in order. -/
theorem transformChunks_out (parts : List TextStreamPart) :
    ∀ st : TransformState,
      (transformChunks parts st).out = st.out ++ parts.filter (fun p => !isEmptyTextDelta p) := by
  induction parts with
  | nil => intro st; simp [transformChunks]
  | cons p ps ih =>
    intro st
    rw [transformChunks_cons, ih]
    by_cases hb : isEmptyTextDelta p = true
    · simp [transformChunk, outChunk, hb, List.filter_cons]
    · simp [transformChunk, outChunk, hb, List.filter_cons, List.append_assoc]

/-- The toolResults future cell passes through the whole transform unchanged. -/
theorem transformChunks_fut_toolResults (parts : List TextStreamPart) :
    ∀ st : TransformState, (transformChunks parts st).fut.toolResults = st.fut.toolResults := by
  induction parts with
  | nil => intro st; rfl
  | cons p ps ih =>
    intro st
    rw [transformChunks_cons, ih]
    exact futChunk_toolResults st.acc st.fut p

/-- A resolved usage cell survives the whole transform with the same value. -/
theorem transformChunks_fut_usage_of_some (parts : List TextStreamPart) :
    ∀ (st : TransformState) (w : CompletionTokenUsage), st.fut.usage = some w →
      (transformChunks parts st).fut.usage = some w := by
  induction parts with
  | nil => intro st w h; exact h
  | cons p ps ih =>
    intro st w h
    rw [transformChunks_cons]
    exact ih _ w (futChunk_usage_of_some st.acc st.fut p w h)

/-- A resolved finishReason cell survives the whole transform. -/
theorem transformChunks_fut_finishReason_of_some (parts : List TextStreamPart) :
    ∀ (st : TransformState) (w : String), st.fut.finishReason = some w →
      (transformChunks parts st).fut.finishReason = some w := by
  induction parts with
  | nil => intro st w h; exact h
  | cons p ps ih =>
    intro st w h
    rw [transformChunks_cons]
    exact ih _ w (futChunk_finishReason_of_some st.acc st.fut p w h)

/-- Unfolding firstFinishInfo over a cons. -/
theorem firstFinishInfo_cons (p : TextStreamPart) (ps : List TextStreamPart) :
    firstFinishInfo (p :: ps) =
      match finishInfo? p with
      | some v => some v
      | none => firstFinishInfo ps := rfl

/-- A pending usage cell is resolved by the transform exactly at the first
finish part, with the usage that part carries; pending if there is none.
This happens during the transform, before any flush. -/
theorem transformChunks_fut_usage_of_none (parts : List TextStreamPart) :
    ∀ st : TransformState, st.fut.usage = none →
      (transformChunks parts st).fut.usage =
        (firstFinishInfo parts).map (fun x => x.2.1) := by
  induction parts with
  | nil => intro st h; simpa [transformChunks, firstFinishInfo]
  | cons p ps ih =>
    intro st h
    rw [transformChunks_cons]
    cases hp : finishInfo? p with
    | some v =>
      obtain ⟨r, u, m⟩ := v
      have hpfin : p = TextStreamPart.finish r u m := by
        cases p <;> simp [finishInfo?] at hp
        obtain ⟨h1, h2, h3⟩ := hp
        rw [h1, h2, h3]
      subst hpfin
      have h1 : (transformChunk st (TextStreamPart.finish r u m)).fut.usage = some u := by
        show resolveCell st.fut.usage u = some u
        rw [h]
        exact resolveCell_none u
      rw [transformChunks_fut_usage_of_some ps _ u h1, firstFinishInfo_cons, hp]
      rfl
    | none =>
      have h1 : (transformChunk st p).fut.usage = none := by
        show (futChunk st.acc st.fut p).usage = none
        rw [futChunk_of_no_finish st.acc st.fut p hp]
        exact h
      rw [ih _ h1, firstFinishInfo_cons, hp]

/-- A pending finishReason cell is resolved by the transform exactly at the
first finish part, with the reason that part carries. -/
theorem transformChunks_fut_finishReason_of_none (parts : List TextStreamPart) :
    ∀ st : TransformState, st.fut.finishReason = none →
      (transformChunks parts st).fut.finishReason =
        (firstFinishInfo parts).map (fun x => x.1) := by
  induction parts with
  | nil => intro st h; simpa [transformChunks, firstFinishInfo]
  | cons p ps ih =>
    intro st h
    rw [transformChunks_cons]
    cases hp : finishInfo? p with
    | some v =>
      obtain ⟨r, u, m⟩ := v
      have hpfin : p = TextStreamPart.finish r u m := by
        cases p <;> simp [finishInfo?] at hp
        obtain ⟨h1, h2, h3⟩ := hp
        rw [h1, h2, h3]
      subst hpfin
      have h1 : (transformChunk st (TextStreamPart.finish r u m)).fut.finishReason = some r := by
        show resolveCell st.fut.finishReason r = some r
        rw [h]
        exact resolveCell_none r
      rw [transformChunks_fut_finishReason_of_some ps _ r h1, firstFinishInfo_cons, hp]
      rfl
    | none =>
      have h1 : (transformChunk st p).fut.finishReason = none := by
        show (futChunk st.acc st.fut p).finishReason = none
        rw [futChunk_of_no_finish st.acc st.fut p hp]
        exact h
      rw [ih _ h1, firstFinishInfo_cons, hp]

/-- A resolved text cell stays resolved with the same value across a chunk. -/
theorem futChunk_text_of_some (acc : RoundtripAcc) (fut : Futures) (p : TextStreamPart)
    (w : String) (h : fut.text = some w) : (futChunk acc fut p).text = some w := by
  cases p <;> try exact h
  show resolveCell fut.text _ = some w
  rw [h]
  exact resolveCell_some w _

/-- A resolved toolCalls cell stays resolved with the same value. -/
theorem futChunk_toolCalls_of_some (acc : RoundtripAcc) (fut : Futures) (p : TextStreamPart)
    (w : List ToolCallPart) (h : fut.toolCalls = some w) :
    (futChunk acc fut p).toolCalls = some w := by
  cases p <;> try exact h
  show resolveCell fut.toolCalls _ = some w
  rw [h]
  exact resolveCell_some w _

/-- A resolved providerMetadata cell stays resolved with the same value. -/
theorem futChunk_providerMetadata_of_some (acc : RoundtripAcc) (fut : Futures)
    (p : TextStreamPart) (w : Option String) (h : fut.providerMetadata = some w) :
    (futChunk acc fut p).providerMetadata = some w := by
  cases p <;> try exact h
  show resolveCell fut.providerMetadata _ = some w
  rw [h]
  exact resolveCell_some w _

/-- A resolved text cell survives the whole transform with the same value. -/
theorem transformChunks_fut_text_of_some (parts : List TextStreamPart) :
    ∀ (st : TransformState) (w : String), st.fut.text = some w →
      (transformChunks parts st).fut.text = some w := by
  induction parts with
  | nil => intro st w h; exact h
  | cons p ps ih =>
    intro st w h
    rw [transformChunks_cons]
    exact ih _ w (futChunk_text_of_some st.acc st.fut p w h)

/-- A resolved toolCalls cell survives the whole transform. -/
theorem transformChunks_fut_toolCalls_of_some (parts : List TextStreamPart) :
    ∀ (st : TransformState) (w : List ToolCallPart), st.fut.toolCalls = some w →
      (transformChunks parts st).fut.toolCalls = some w := by
  induction parts with
  | nil => intro st w h; exact h
  | cons p ps ih =>
    intro st w h
    rw [transformChunks_cons]
    exact ih _ w (futChunk_toolCalls_of_some st.acc st.fut p w h)

/-- A resolved providerMetadata cell survives the whole transform. -/
theorem transformChunks_fut_providerMetadata_of_some (parts : List TextStreamPart) :
    ∀ (st : TransformState) (w : Option String), st.fut.providerMetadata = some w →
      (transformChunks parts st).fut.providerMetadata = some w := by
  induction parts with
  | nil => intro st w h; exact h
  | cons p ps ih =>
    intro st w h
    rw [transformChunks_cons]
    exact ih _ w (futChunk_providerMetadata_of_some st.acc st.fut p w h)

/-- A pending providerMetadata cell is resolved by the transform exactly at
the first finish part, with the metadata that part carries. -/
theorem transformChunks_fut_providerMetadata_of_none (parts : List TextStreamPart) :
    ∀ st : TransformState, st.fut.providerMetadata = none →
      (transformChunks parts st).fut.providerMetadata =
        (firstFinishInfo parts).map (fun x => x.2.2) := by
  induction parts with
  | nil => intro st h; simpa [transformChunks, firstFinishInfo]
  | cons p ps ih =>
    intro st h
    rw [transformChunks_cons]
    cases hp : finishInfo? p with
    | some v =>
      obtain ⟨r, u, m⟩ := v
      have hpfin : p = TextStreamPart.finish r u m := by
        cases p <;> simp [finishInfo?] at hp
        obtain ⟨h1, h2, h3⟩ := hp
        rw [h1, h2, h3]
      subst hpfin
      have h1 : (transformChunk st (TextStreamPart.finish r u m)).fut.providerMetadata =
          some m := by
        show resolveCell st.fut.providerMetadata m = some m
        rw [h]
        exact resolveCell_none m
      rw [transformChunks_fut_providerMetadata_of_some ps _ m h1, firstFinishInfo_cons, hp]
      rfl
    | none =>
      have h1 : (transformChunk st p).fut.providerMetadata = none := by
        show (futChunk st.acc st.fut p).providerMetadata = none
        rw [futChunk_of_no_finish st.acc st.fut p hp]
        exact h
      rw [ih _ h1, firstFinishInfo_cons, hp]

/-- A pending text cell is resolved by the transform exactly at the first
finish part, with the text accumulated up to that part (the fold of the
accumulator over the parts before the first finish). -/
theorem transformChunks_fut_text_of_none (parts : List TextStreamPart) :
    ∀ st : TransformState, st.fut.text = none →
      (transformChunks parts st).fut.text =
        (firstFinishInfo parts).map
          (fun _ => ((prefixToFirstFinish parts).foldl accChunk st.acc).text) := by
  induction parts with
  | nil => intro st h; simpa [transformChunks, firstFinishInfo]
  | cons p ps ih =>
    intro st h
    rw [transformChunks_cons]
    cases hp : finishInfo? p with
    | some v =>
      obtain ⟨r, u, m⟩ := v
      have hpfin : p = TextStreamPart.finish r u m := by
        cases p <;> simp [finishInfo?] at hp
        obtain ⟨h1, h2, h3⟩ := hp
        rw [h1, h2, h3]
      subst hpfin
      have h1 : (transformChunk st (TextStreamPart.finish r u m)).fut.text =
          some st.acc.text := by
        show resolveCell st.fut.text st.acc.text = some st.acc.text
        rw [h]
        exact resolveCell_none _
      rw [transformChunks_fut_text_of_some ps _ st.acc.text h1, firstFinishInfo_cons, hp]
      rfl
    | none =>
      have h1 : (transformChunk st p).fut.text = none := by
        show (futChunk st.acc st.fut p).text = none
        rw [futChunk_of_no_finish st.acc st.fut p hp]
        exact h
      have hprefix : prefixToFirstFinish (p :: ps) = p :: prefixToFirstFinish ps := by
        simp [prefixToFirstFinish, hp]
      rw [ih _ h1, firstFinishInfo_cons, hp, hprefix]
      rfl

/-- A pending toolCalls cell is resolved by the transform exactly at the first
finish part, with the tool calls accumulated up to that part. -/
theorem transformChunks_fut_toolCalls_of_none (parts : List TextStreamPart) :
    ∀ st : TransformState, st.fut.toolCalls = none →
      (transformChunks parts st).fut.toolCalls =
        (firstFinishInfo parts).map
          (fun _ => ((prefixToFirstFinish parts).foldl accChunk st.acc).toolCalls) := by
  induction parts with
  | nil => intro st h; simpa [transformChunks, firstFinishInfo]
  | cons p ps ih =>
    intro st h
    rw [transformChunks_cons]
    cases hp : finishInfo? p with
    | some v =>
      obtain ⟨r, u, m⟩ := v
      have hpfin : p = TextStreamPart.finish r u m := by
        cases p <;> simp [finishInfo?] at hp
        obtain ⟨h1, h2, h3⟩ := hp
        rw [h1, h2, h3]
      subst hpfin
      have h1 : (transformChunk st (TextStreamPart.finish r u m)).fut.toolCalls =
          some st.acc.toolCalls := by
        show resolveCell st.fut.toolCalls st.acc.toolCalls = some st.acc.toolCalls
        rw [h]
        exact resolveCell_none _
      rw [transformChunks_fut_toolCalls_of_some ps _ st.acc.toolCalls h1,
        firstFinishInfo_cons, hp]
      rfl
    | none =>
      have h1 : (transformChunk st p).fut.toolCalls = none := by
        show (futChunk st.acc st.fut p).toolCalls = none
        rw [futChunk_of_no_finish st.acc st.fut p hp]
        exact h
      have hprefix : prefixToFirstFinish (p :: ps) = p :: prefixToFirstFinish ps := by
        simp [prefixToFirstFinish, hp]
      rw [ih _ h1, firstFinishInfo_cons, hp, hprefix]
      rfl

/-- hasFinish agrees with the definedness of firstFinishInfo. -/
theorem hasFinish_iff_firstFinishInfo (parts : List TextStreamPart) :
    hasFinish parts = (firstFinishInfo parts).isSome := by
  induction parts with
  | nil => rfl
  | cons p ps ih =>
    cases hp : finishInfo? p with
    | some v => simp [hasFinish, List.any_cons, hp, firstFinishInfo_cons]
    | none =>
      simp only [hasFinish, List.any_cons, hp, firstFinishInfo_cons, Option.isSome_none,
        Bool.false_or]
      exact ih

/-- A roundtrip without a finish part leaves every future cell unchanged. -/
theorem transformChunks_fut_of_no_finish (parts : List TextStreamPart) :
    ∀ st : TransformState, hasFinish parts = false → (transformChunks parts st).fut = st.fut := by
  induction parts with
  | nil => intro st _; rfl
  | cons p ps ih =>
    intro st h
    have h2 : (finishInfo? p).isSome = false ∧
        ps.any (fun q => (finishInfo? q).isSome) = false := by
      simpa [hasFinish, List.any_cons] using h
    have hp : finishInfo? p = none := by
      cases hfp : finishInfo? p
      · rfl
      · rw [hfp] at h2; simp at h2
    rw [transformChunks_cons, ih (transformChunk st p) (by simpa [hasFinish] using h2.2)]
    exact futChunk_of_no_finish st.acc st.fut p hp

/-- A chunk that is not a finish part leaves the captured usage and reason of
the accumulator unchanged. -/
theorem accChunk_of_no_finish (a : RoundtripAcc) (p : TextStreamPart)
    (h : finishInfo? p = none) :
    (accChunk a p).usage = a.usage ∧ (accChunk a p).finishReason = a.finishReason := by
  cases p <;> first
    | exact ⟨rfl, rfl⟩
    | (refine ⟨?_, ?_⟩ <;> (unfold accChunk; split <;> rfl))
    | simp [finishInfo?] at h

/-- A part list without a finish part leaves the captured usage and reason of
the accumulator fold unchanged. -/
theorem accFold_of_no_finish (parts : List TextStreamPart) :
    ∀ a : RoundtripAcc, hasFinish parts = false →
      (parts.foldl accChunk a).usage = a.usage ∧
      (parts.foldl accChunk a).finishReason = a.finishReason := by
  induction parts with
  | nil => intro a _; exact ⟨rfl, rfl⟩
  | cons p ps ih =>
    intro a h
    have h2 : (finishInfo? p).isSome = false ∧ ps.any (fun q => (finishInfo? q).isSome) = false := by
      simpa [hasFinish, List.any_cons] using h
    have hp : finishInfo? p = none := by
      cases hfp : finishInfo? p
      · rfl
      · rw [hfp] at h2; simp at h2
    obtain ⟨e1, e2⟩ := accChunk_of_no_finish a p hp
    obtain ⟨f1, f2⟩ := ih (accChunk a p) (by simpa [hasFinish] using h2.2)
    rw [List.foldl_cons]
    exact ⟨f1.trans e1, f2.trans e2⟩

/-- A roundtrip without a finish part captures no usage and no reason. -/
theorem roundtripAcc_of_no_finish (parts : List TextStreamPart)
    (h : hasFinish parts = false) :
    (roundtripAcc parts).usage = none ∧ (roundtripAcc parts).finishReason = none :=
  accFold_of_no_finish parts RoundtripAcc.init h

/-- Filtering with a predicate yields a list on which the predicate holds. -/
theorem all_filter_self {α : Type} (l : List α) (f : α → Bool) :
    (l.filter f).all f = true := by
  rw [List.all_eq_true]
  intro a ha
  exact List.of_mem_filter ha

/-- Processing a roundtrip adds one provider call. -/
theorem nextRunState_providerCalls (script : Nat → List TextStreamPart) (current : Nat)
    (st : RunState) : (nextRunState script current st).providerCalls = st.providerCalls + 1 := rfl

/-- Processing a roundtrip invokes no onFinish callback. -/
theorem nextRunState_onFinishEvents (script : Nat → List TextStreamPart) (current : Nat)
    (st : RunState) : (nextRunState script current st).onFinishEvents = st.onFinishEvents := rfl

/-- Processing a roundtrip never resolves the toolResults future. -/
theorem nextRunState_toolResults (script : Nat → List TextStreamPart) (current : Nat)
    (st : RunState) :
    (nextRunState script current st).futures.toolResults = st.futures.toolResults := by
  show (transformChunks (script current) ⟨RoundtripAcc.init, st.futures, []⟩).fut.toolResults = _
  rw [transformChunks_fut_toolResults]

/-- The terminal flush adds the one provider call of its own roundtrip. -/
theorem terminalRunState_providerCalls (script : Nat → List TextStreamPart) (current : Nat)
    (st : RunState) :
    (terminalRunState script current st).providerCalls = st.providerCalls + 1 := rfl

/-- The terminal flush invokes onFinish exactly once, with the snapshot of the
current roundtrip. -/
theorem terminalRunState_onFinishEvents (script : Nat → List TextStreamPart) (current : Nat)
    (st : RunState) :
    (terminalRunState script current st).onFinishEvents =
      st.onFinishEvents ++ [finishEventOf (roundtripAcc (script current))] := rfl

/-- The terminal flush resolves the toolResults future with the tool results
of the current roundtrip. -/
theorem terminalRunState_toolResults (script : Nat → List TextStreamPart) (current : Nat)
    (st : RunState) :
    (terminalRunState script current st).futures.toolResults =
      resolveCell st.futures.toolResults ((roundtripAcc (script current)).toolResults) := by
  show resolveCell (nextRunState script current st).futures.toolResults _ = _
  rw [nextRunState_toolResults]

/-- Unfolding the orchestrator over one unit of fuel. -/
theorem runFuel_succ (fuel : Nat) (script : Nat → List TextStreamPart)
    (maxR current : Nat) (st : RunState) :
    runFuel (fuel + 1) script maxR current st =
      if shouldContinue (roundtripAcc (script current)) current maxR then
        runFuel fuel script maxR (current + 1) (nextRunState script current st)
      else
        terminalRunState script current st := rfl

/-- A true continuation predicate forces the ordinal below the maximum. -/
theorem shouldContinue_lt (acc : RoundtripAcc) (current maxR : Nat)
    (h : shouldContinue acc current maxR = true) : current < maxR := by
  simp [shouldContinue] at h
  omega

/-- Every invocation of the orchestrator issues at least one provider call. -/
theorem runFuel_calls_ge (script : Nat → List TextStreamPart) (maxR : Nat) :
    ∀ (fuel current : Nat) (st : RunState), maxR - current < fuel →
      st.providerCalls + 1 ≤ (runFuel fuel script maxR current st).providerCalls := by
  intro fuel
  induction fuel with
  | zero => intro current st h; omega
  | succ fuel ih =>
    intro current st h
    rw [runFuel_succ]
    by_cases hc : shouldContinue (roundtripAcc (script current)) current maxR = true
    · have hm : current < maxR := shouldContinue_lt _ _ _ hc
      rw [if_pos hc]
      have hrec := ih (current + 1) (nextRunState script current st) (by omega)
      rw [nextRunState_providerCalls] at hrec
      omega
    · rw [if_neg hc, terminalRunState_providerCalls]

/-- The orchestrator always reaches a unique terminal flush: there is a
terminal roundtrip ordinal t at which the stitchable stream is closed, the
onFinish callback is invoked once with the snapshot of roundtrip t, the
toolResults future is resolved with the tool results of roundtrip t, and the
provider call count grows by the number of processed roundtrips. -/
theorem runFuel_terminal (script : Nat → List TextStreamPart) (maxR : Nat) :
    ∀ (fuel current : Nat) (st : RunState), maxR - current < fuel →
      ∃ t : Nat, current ≤ t ∧
        (runFuel fuel script maxR current st).providerCalls =
          st.providerCalls + (t - current) + 1 ∧
        (runFuel fuel script maxR current st).onFinishEvents =
          st.onFinishEvents ++ [finishEventOf (roundtripAcc (script t))] ∧
        (runFuel fuel script maxR current st).futures.toolResults =
          resolveCell st.futures.toolResults ((roundtripAcc (script t)).toolResults) ∧
        (runFuel fuel script maxR current st).stitchClosed = true := by
  intro fuel
  induction fuel with
  | zero => intro current st h; omega
  | succ fuel ih =>
    intro current st h
    rw [runFuel_succ]
    by_cases hc : shouldContinue (roundtripAcc (script current)) current maxR = true
    · have hm : current < maxR := shouldContinue_lt _ _ _ hc
      rw [if_pos hc]
      obtain ⟨t, ht1, ht2, ht3, ht4, ht5⟩ := ih (current + 1) (nextRunState script current st)
        (by omega)
      rw [nextRunState_providerCalls] at ht2
      rw [nextRunState_onFinishEvents] at ht3
      rw [nextRunState_toolResults] at ht4
      exact ⟨t, by omega, by rw [ht2]; omega, ht3, ht4, ht5⟩
    · rw [if_neg hc]
      exact ⟨current, Nat.le_refl current,
        by rw [terminalRunState_providerCalls]; omega,
        terminalRunState_onFinishEvents script current st,
        terminalRunState_toolResults script current st,
        rfl⟩

/-- Peeling the first index out of a bounded universal. -/
theorem forall_lt_shift (p : Nat → Prop) (n c : Nat) :
    (∀ i, i < n + 1 → p (c + i)) ↔ (p c ∧ ∀ i, i < n → p (c + 1 + i)) := by
  constructor
  · intro h
    refine ⟨by simpa using h 0 (by omega), fun i hi => ?_⟩
    have hx := h (i + 1) (by omega)
    have e : c + (i + 1) = c + 1 + i := by omega
    rwa [e] at hx
  · rintro ⟨h0, h1⟩ i hi
    cases i with
    | zero => simpa using h0
    | succ j =>
      have hx := h1 j (by omega)
      have e : c + 1 + j = c + (j + 1) := by omega
      rwa [e] at hx

/-- Peeling the last index out of a bounded universal. -/
theorem forall_lt_peel (p : Nat → Prop) (n : Nat) :
    (∀ i, i < n + 1 → p i) ↔ ((∀ i, i < n → p i) ∧ p n) := by
  constructor
  · intro h
    exact ⟨fun i hi => h i (by omega), h n (by omega)⟩
  · rintro ⟨h1, h2⟩ i hi
    rcases Nat.lt_succ_iff_lt_or_eq.mp hi with hx | hx
    · exact h1 i hx
    · rw [hx]; exact h2

/-- The number of provider calls beyond the first n of an orchestrator run is
characterized by the continuation predicate holding on the first n roundtrips
processed: the roundtrip after ordinal current + i is reached exactly when
every roundtrip from current through current + i continues. -/
theorem runFuel_calls_iff (script : Nat → List TextStreamPart) (maxR : Nat) :
    ∀ (fuel current : Nat) (st : RunState), maxR - current < fuel → ∀ n : Nat,
      (st.providerCalls + n + 1 ≤ (runFuel fuel script maxR current st).providerCalls ↔
        ∀ i, i < n →
          shouldContinue (roundtripAcc (script (current + i))) (current + i) maxR = true) := by
  intro fuel
  induction fuel with
  | zero => intro current st h; omega
  | succ fuel ih =>
    intro current st h n
    rw [runFuel_succ]
    by_cases hc : shouldContinue (roundtripAcc (script current)) current maxR = true
    · have hm : current < maxR := shouldContinue_lt _ _ _ hc
      rw [if_pos hc]
      cases n with
      | zero =>
        have hge := runFuel_calls_ge script maxR fuel (current + 1)
          (nextRunState script current st) (by omega)
        rw [nextRunState_providerCalls] at hge
        constructor
        · intro _ i hi; omega
        · intro _; omega
      | succ n =>
        have hiff := ih (current + 1) (nextRunState script current st) (by omega) n
        rw [nextRunState_providerCalls] at hiff
        have hshift := forall_lt_shift
          (fun j => shouldContinue (roundtripAcc (script j)) j maxR = true) n current
        constructor
        · intro hle
          exact hshift.mpr ⟨hc, hiff.mp (by omega)⟩
        · intro hall
          obtain ⟨h0, h1⟩ := hshift.mp hall
          have := hiff.mpr h1
          omega
    · rw [if_neg hc]
      have hpc : (terminalRunState script current st).providerCalls = st.providerCalls + 1 :=
        terminalRunState_providerCalls script current st
      cases n with
      | zero =>
        constructor
        · intro _ i hi; omega
        · intro _; omega
      | succ n =>
        constructor
        · intro hle; omega
        · intro hall
          exact absurd (by simpa using hall 0 (by omega)) hc

/-- A resolved usage future survives the rest of the run unchanged: the
transform only writes pending cells and the terminal flush does not touch
the usage cell. -/
theorem runFuel_usage_of_some (script : Nat → List TextStreamPart) (maxR : Nat) :
    ∀ (fuel current : Nat) (st : RunState) (w : CompletionTokenUsage), maxR - current < fuel →
      st.futures.usage = some w →
      (runFuel fuel script maxR current st).futures.usage = some w := by
  intro fuel
  induction fuel with
  | zero => intro current st w h; omega
  | succ fuel ih =>
    intro current st w h hw
    rw [runFuel_succ]
    have hnext : (nextRunState script current st).futures.usage = some w :=
      transformChunks_fut_usage_of_some (script current) ⟨RoundtripAcc.init, st.futures, []⟩ w hw
    by_cases hc : shouldContinue (roundtripAcc (script current)) current maxR = true
    · have hm : current < maxR := shouldContinue_lt _ _ _ hc
      rw [if_pos hc]
      exact ih (current + 1) (nextRunState script current st) w (by omega) hnext
    · rw [if_neg hc]
      exact hnext

/-- A resolved finishReason future survives the rest of the run unchanged. -/
theorem runFuel_finishReason_of_some (script : Nat → List TextStreamPart) (maxR : Nat) :
    ∀ (fuel current : Nat) (st : RunState) (w : String), maxR - current < fuel →
      st.futures.finishReason = some w →
      (runFuel fuel script maxR current st).futures.finishReason = some w := by
  intro fuel
  induction fuel with
  | zero => intro current st w h; omega
  | succ fuel ih =>
    intro current st w h hw
    rw [runFuel_succ]
    have hnext : (nextRunState script current st).futures.finishReason = some w :=
      transformChunks_fut_finishReason_of_some (script current)
        ⟨RoundtripAcc.init, st.futures, []⟩ w hw
    by_cases hc : shouldContinue (roundtripAcc (script current)) current maxR = true
    · have hm : current < maxR := shouldContinue_lt _ _ _ hc
      rw [if_pos hc]
      exact ih (current + 1) (nextRunState script current st) w (by omega) hnext
    · rw [if_neg hc]
      exact hnext

/-- A resolved text future survives the rest of the run unchanged. -/
theorem runFuel_text_of_some (script : Nat → List TextStreamPart) (maxR : Nat) :
    ∀ (fuel current : Nat) (st : RunState) (w : String), maxR - current < fuel →
      st.futures.text = some w →
      (runFuel fuel script maxR current st).futures.text = some w := by
  intro fuel
  induction fuel with
  | zero => intro current st w h; omega
  | succ fuel ih =>
    intro current st w h hw
    rw [runFuel_succ]
    have hnext : (nextRunState script current st).futures.text = some w :=
      transformChunks_fut_text_of_some (script current) ⟨RoundtripAcc.init, st.futures, []⟩ w hw
    by_cases hc : shouldContinue (roundtripAcc (script current)) current maxR = true
    · have hm : current < maxR := shouldContinue_lt _ _ _ hc
      rw [if_pos hc]
      exact ih (current + 1) (nextRunState script current st) w (by omega) hnext
    · rw [if_neg hc]
      exact hnext

/-- A resolved toolCalls future survives the rest of the run unchanged. -/
theorem runFuel_toolCalls_of_some (script : Nat → List TextStreamPart) (maxR : Nat) :
    ∀ (fuel current : Nat) (st : RunState) (w : List ToolCallPart), maxR - current < fuel →
      st.futures.toolCalls = some w →
      (runFuel fuel script maxR current st).futures.toolCalls = some w := by
  intro fuel
  induction fuel with
  | zero => intro current st w h; omega
  | succ fuel ih =>
    intro current st w h hw
    rw [runFuel_succ]
    have hnext : (nextRunState script current st).futures.toolCalls = some w :=
      transformChunks_fut_toolCalls_of_some (script current)
        ⟨RoundtripAcc.init, st.futures, []⟩ w hw
    by_cases hc : shouldContinue (roundtripAcc (script current)) current maxR = true
    · have hm : current < maxR := shouldContinue_lt _ _ _ hc
      rw [if_pos hc]
      exact ih (current + 1) (nextRunState script current st) w (by omega) hnext
    · rw [if_neg hc]
      exact hnext

/-- A resolved providerMetadata future survives the rest of the run. -/
theorem runFuel_providerMetadata_of_some (script : Nat → List TextStreamPart) (maxR : Nat) :
    ∀ (fuel current : Nat) (st : RunState) (w : Option String), maxR - current < fuel →
      st.futures.providerMetadata = some w →
      (runFuel fuel script maxR current st).futures.providerMetadata = some w := by
  intro fuel
  induction fuel with
  | zero => intro current st w h; omega
  | succ fuel ih =>
    intro current st w h hw
    rw [runFuel_succ]
    have hnext : (nextRunState script current st).futures.providerMetadata = some w :=
      transformChunks_fut_providerMetadata_of_some (script current)
        ⟨RoundtripAcc.init, st.futures, []⟩ w hw
    by_cases hc : shouldContinue (roundtripAcc (script current)) current maxR = true
    · have hm : current < maxR := shouldContinue_lt _ _ _ hc
      rw [if_pos hc]
      exact ih (current + 1) (nextRunState script current st) w (by omega) hnext
    · rw [if_neg hc]
      exact hnext

/-- When the five pending aggregate futures meet a run whose roundtrips before
r carry no finish part, roundtrip r carries one, and roundtrip r is processed,
the run resolves usage, finishReason, providerMetadata, text and toolCalls
with the values captured at the first finish part of roundtrip r: these cells
hold the values of the first roundtrip that emitted a finish part. -/
theorem runFuel_first_finish (script : Nat → List TextStreamPart) (maxR : Nat) :
    ∀ (fuel current : Nat) (st : RunState) (r : Nat), maxR - current < fuel →
      st.futures.usage = none → st.futures.finishReason = none → st.futures.text = none →
      st.futures.toolCalls = none → st.futures.providerMetadata = none →
      current ≤ r →
      (∀ i, current ≤ i → i < r → hasFinish (script i) = false) →
      hasFinish (script r) = true →
      st.providerCalls + (r - current) + 1 ≤
        (runFuel fuel script maxR current st).providerCalls →
      ((runFuel fuel script maxR current st).futures.usage =
          (firstFinishInfo (script r)).map (fun x => x.2.1) ∧
       (runFuel fuel script maxR current st).futures.finishReason =
          (firstFinishInfo (script r)).map (fun x => x.1) ∧
       (runFuel fuel script maxR current st).futures.providerMetadata =
          (firstFinishInfo (script r)).map (fun x => x.2.2) ∧
       (runFuel fuel script maxR current st).futures.text =
          (firstFinishInfo (script r)).map
            (fun _ => ((prefixToFirstFinish (script r)).foldl accChunk RoundtripAcc.init).text) ∧
       (runFuel fuel script maxR current st).futures.toolCalls =
          (firstFinishInfo (script r)).map
            (fun _ =>
              ((prefixToFirstFinish (script r)).foldl accChunk RoundtripAcc.init).toolCalls)) := by
  intro fuel
  induction fuel with
  | zero => intro current st r h; omega
  | succ fuel ih =>
    intro current st r h hu hfr htx htc hpm hcr hpre hfin hreach
    rw [runFuel_succ] at hreach ⊢
    by_cases hc : shouldContinue (roundtripAcc (script current)) current maxR = true
    · rw [if_pos hc] at hreach ⊢
      have hm : current < maxR := shouldContinue_lt _ _ _ hc
      rcases Nat.lt_or_ge current r with hlt | hge
      · have hnf : hasFinish (script current) = false := hpre current (Nat.le_refl current) hlt
        have hfut : (nextRunState script current st).futures = st.futures := by
          show (transformChunks (script current) ⟨RoundtripAcc.init, st.futures, []⟩).fut = _
          exact transformChunks_fut_of_no_finish (script current) _ hnf
        have e1 : (nextRunState script current st).providerCalls = st.providerCalls + 1 := rfl
        exact ih (current + 1) (nextRunState script current st) r (by omega)
          (by rw [hfut]; exact hu) (by rw [hfut]; exact hfr) (by rw [hfut]; exact htx)
          (by rw [hfut]; exact htc) (by rw [hfut]; exact hpm)
          (by omega) (fun i hi1 hi2 => hpre i (by omega) hi2) hfin (by omega)
      · have heq : current = r := Nat.le_antisymm hcr hge
        subst heq
        have hru := transformChunks_fut_usage_of_none (script current)
          ⟨RoundtripAcc.init, st.futures, []⟩ hu
        have hrf := transformChunks_fut_finishReason_of_none (script current)
          ⟨RoundtripAcc.init, st.futures, []⟩ hfr
        have hrm := transformChunks_fut_providerMetadata_of_none (script current)
          ⟨RoundtripAcc.init, st.futures, []⟩ hpm
        have hrt := transformChunks_fut_text_of_none (script current)
          ⟨RoundtripAcc.init, st.futures, []⟩ htx
        have hrc := transformChunks_fut_toolCalls_of_none (script current)
          ⟨RoundtripAcc.init, st.futures, []⟩ htc
        have hfs : (firstFinishInfo (script current)).isSome = true := by
          rw [← hasFinish_iff_firstFinishInfo]
          exact hfin
        obtain ⟨v, hv⟩ := Option.isSome_iff_exists.mp hfs
        have hru2 : (nextRunState script current st).futures.usage = some v.2.1 := by
          show (transformChunks (script current)
            ⟨RoundtripAcc.init, st.futures, []⟩).fut.usage = _
          rw [hru, hv]
          rfl
        have hrf2 : (nextRunState script current st).futures.finishReason = some v.1 := by
          show (transformChunks (script current)
            ⟨RoundtripAcc.init, st.futures, []⟩).fut.finishReason = _
          rw [hrf, hv]
          rfl
        have hrm2 : (nextRunState script current st).futures.providerMetadata = some v.2.2 := by
          show (transformChunks (script current)
            ⟨RoundtripAcc.init, st.futures, []⟩).fut.providerMetadata = _
          rw [hrm, hv]
          rfl
        have hrt2 : (nextRunState script current st).futures.text =
            some ((prefixToFirstFinish (script current)).foldl accChunk RoundtripAcc.init).text := by
          show (transformChunks (script current)
            ⟨RoundtripAcc.init, st.futures, []⟩).fut.text = _
          rw [hrt, hv]
          rfl
        have hrc2 : (nextRunState script current st).futures.toolCalls =
            some ((prefixToFirstFinish (script current)).foldl accChunk
              RoundtripAcc.init).toolCalls := by
          show (transformChunks (script current)
            ⟨RoundtripAcc.init, st.futures, []⟩).fut.toolCalls = _
          rw [hrc, hv]
          rfl
        refine ⟨?_, ?_, ?_, ?_, ?_⟩
        · rw [runFuel_usage_of_some script maxR fuel (current + 1)
            (nextRunState script current st) v.2.1 (by omega) hru2, hv]
          rfl
        · rw [runFuel_finishReason_of_some script maxR fuel (current + 1)
            (nextRunState script current st) v.1 (by omega) hrf2, hv]
          rfl
        · rw [runFuel_providerMetadata_of_some script maxR fuel (current + 1)
            (nextRunState script current st) v.2.2 (by omega) hrm2, hv]
          rfl
        · rw [runFuel_text_of_some script maxR fuel (current + 1)
            (nextRunState script current st) _ (by omega) hrt2, hv]
          rfl
        · rw [runFuel_toolCalls_of_some script maxR fuel (current + 1)
            (nextRunState script current st) _ (by omega) hrc2, hv]
          rfl
    · rw [if_neg hc] at hreach ⊢
      have e1 : (terminalRunState script current st).providerCalls = st.providerCalls + 1 := rfl
      have heq : current = r := by omega
      subst heq
      refine ⟨?_, ?_, ?_, ?_, ?_⟩
      · show (transformChunks (script current)
          ⟨RoundtripAcc.init, st.futures, []⟩).fut.usage = _
        exact transformChunks_fut_usage_of_none (script current) _ hu
      · show (transformChunks (script current)
          ⟨RoundtripAcc.init, st.futures, []⟩).fut.finishReason = _
        exact transformChunks_fut_finishReason_of_none (script current) _ hfr
      · show (transformChunks (script current)
          ⟨RoundtripAcc.init, st.futures, []⟩).fut.providerMetadata = _
        exact transformChunks_fut_providerMetadata_of_none (script current) _ hpm
      · show (transformChunks (script current)
          ⟨RoundtripAcc.init, st.futures, []⟩).fut.text = _
        exact transformChunks_fut_text_of_none (script current) _ htx
      · show (transformChunks (script current)
          ⟨RoundtripAcc.init, st.futures, []⟩).fut.toolCalls = _
        exact transformChunks_fut_toolCalls_of_none (script current) _ htc

/-- A run none of whose processed roundtrips contains a finish part leaves the
usage, finishReason, text, toolCalls and providerMetadata futures pending:
nothing on such a run ever resolves them. -/
theorem runFuel_no_finish_pending (script : Nat → List TextStreamPart) (maxR : Nat) :
    ∀ (fuel current : Nat) (st : RunState), maxR - current < fuel →
      st.futures.usage = none → st.futures.finishReason = none → st.futures.text = none →
      st.futures.toolCalls = none → st.futures.providerMetadata = none →
      (∀ i, current ≤ i →
        i < current + ((runFuel fuel script maxR current st).providerCalls - st.providerCalls) →
        hasFinish (script i) = false) →
      ((runFuel fuel script maxR current st).futures.usage = none ∧
       (runFuel fuel script maxR current st).futures.finishReason = none ∧
       (runFuel fuel script maxR current st).futures.text = none ∧
       (runFuel fuel script maxR current st).futures.toolCalls = none ∧
       (runFuel fuel script maxR current st).futures.providerMetadata = none) := by
  intro fuel
  induction fuel with
  | zero => intro current st h; omega
  | succ fuel ih =>
    intro current st h hu hfr htx htc hpm hpre
    rw [runFuel_succ] at hpre ⊢
    by_cases hc : shouldContinue (roundtripAcc (script current)) current maxR = true
    · rw [if_pos hc] at hpre ⊢
      have hm : current < maxR := shouldContinue_lt _ _ _ hc
      have e1 : (nextRunState script current st).providerCalls = st.providerCalls + 1 := rfl
      have hge := runFuel_calls_ge script maxR fuel (current + 1)
        (nextRunState script current st) (by omega)
      have hnf : hasFinish (script current) = false :=
        hpre current (Nat.le_refl current) (by omega)
      have hfut : (nextRunState script current st).futures = st.futures := by
        show (transformChunks (script current) ⟨RoundtripAcc.init, st.futures, []⟩).fut = _
        exact transformChunks_fut_of_no_finish (script current) _ hnf
      exact ih (current + 1) (nextRunState script current st) (by omega)
        (by rw [hfut]; exact hu) (by rw [hfut]; exact hfr) (by rw [hfut]; exact htx)
        (by rw [hfut]; exact htc) (by rw [hfut]; exact hpm)
        (fun i hi1 hi2 => hpre i (by omega) (by omega))
    · rw [if_neg hc] at hpre ⊢
      have e1 : (terminalRunState script current st).providerCalls = st.providerCalls + 1 := rfl
      have hnf : hasFinish (script current) = false :=
        hpre current (Nat.le_refl current) (by omega)
      have hfut : (nextRunState script current st).futures = st.futures := by
        show (transformChunks (script current) ⟨RoundtripAcc.init, st.futures, []⟩).fut = _
        exact transformChunks_fut_of_no_finish (script current) _ hnf
      refine ⟨?_, ?_, ?_, ?_, ?_⟩
      · show (nextRunState script current st).futures.usage = none
        rw [hfut]; exact hu
      · show (nextRunState script current st).futures.finishReason = none
        rw [hfut]; exact hfr
      · show (nextRunState script current st).futures.text = none
        rw [hfut]; exact htx
      · show (nextRunState script current st).futures.toolCalls = none
        rw [hfut]; exact htc
      · show (nextRunState script current st).futures.providerMetadata = none
        rw [hfut]; exact hpm

/-- The stitched output of a run never gains an empty text-delta: the all
predicate over non-emptiness is preserved by the whole orchestration. -/
theorem runFuel_out_all (script : Nat → List TextStreamPart) (maxR : Nat) :
    ∀ (fuel current : Nat) (st : RunState), maxR - current < fuel →
      ((runFuel fuel script maxR current st).out.all (fun p => !isEmptyTextDelta p)) =
        (st.out.all (fun p => !isEmptyTextDelta p)) := by
  intro fuel
  induction fuel with
  | zero => intro current st h; omega
  | succ fuel ih =>
    intro current st h
    rw [runFuel_succ]
    have hnext : ((nextRunState script current st).out.all (fun p => !isEmptyTextDelta p)) =
        (st.out.all (fun p => !isEmptyTextDelta p)) := by
      show ((st.out ++
          (transformChunks (script current) ⟨RoundtripAcc.init, st.futures, []⟩).out).all
            (fun p => !isEmptyTextDelta p)) = _
      rw [transformChunks_out, List.nil_append, List.all_append, all_filter_self]
      exact Bool.and_true _
    by_cases hc : shouldContinue (roundtripAcc (script current)) current maxR = true
    · have hm : current < maxR := shouldContinue_lt _ _ _ hc
      rw [if_pos hc]
      rw [ih (current + 1) (nextRunState script current st) (by omega)]
      exact hnext
    · rw [if_neg hc]
      exact hnext

/-- When the identifiers of the tool calls and of the tool results of a
roundtrip are each free of duplicates and every result identifier refers to a
call identifier (the correlation invariant of the tool execution transform,
spec section 4.3), the count comparison of the flush is equivalent to every
tool call having a correlated tool result. -/
theorem count_eq_iff_all_have_results (calls : List ToolCallPart) (results : List ToolResultPart)
    (hC : (calls.map ToolCallPart.toolCallId).Nodup)
    (hR : (results.map ToolResultPart.toolCallId).Nodup)
    (hsub : ∀ x ∈ results.map ToolResultPart.toolCallId, x ∈ calls.map ToolCallPart.toolCallId) :
    (results.length = calls.length ↔
      ∀ c ∈ calls, ∃ res ∈ results, res.toolCallId = c.toolCallId) := by
  have hRC : (results.map ToolResultPart.toolCallId).toFinset ⊆
      (calls.map ToolCallPart.toolCallId).toFinset := by
    intro x hx
    rw [List.mem_toFinset] at hx ⊢
    exact hsub x hx
  have cardR : (results.map ToolResultPart.toolCallId).toFinset.card = results.length := by
    rw [List.toFinset_card_of_nodup hR, List.length_map]
  have cardC : (calls.map ToolCallPart.toolCallId).toFinset.card = calls.length := by
    rw [List.toFinset_card_of_nodup hC, List.length_map]
  constructor
  · intro hlen c hc
    have heq : (results.map ToolResultPart.toolCallId).toFinset =
        (calls.map ToolCallPart.toolCallId).toFinset :=
      Finset.eq_of_subset_of_card_le hRC (by omega)
    have hcmem : c.toolCallId ∈ (results.map ToolResultPart.toolCallId).toFinset := by
      rw [heq, List.mem_toFinset, List.mem_map]
      exact ⟨c, hc, rfl⟩
    rw [List.mem_toFinset, List.mem_map] at hcmem
    obtain ⟨res, hres, hid⟩ := hcmem
    exact ⟨res, hres, hid⟩
  · intro hall
    have hCR : (calls.map ToolCallPart.toolCallId).toFinset ⊆
        (results.map ToolResultPart.toolCallId).toFinset := by
      intro x hx
      rw [List.mem_toFinset, List.mem_map] at hx
      obtain ⟨c, hc, hid⟩ := hx
      obtain ⟨res, hres, hrid⟩ := hall c hc
      rw [List.mem_toFinset, List.mem_map]
      exact ⟨res, hres, by rw [hrid, hid]⟩
    have heq : (results.map ToolResultPart.toolCallId).toFinset =
        (calls.map ToolCallPart.toolCallId).toFinset :=
      Finset.Subset.antisymm hRC hCR
    rw [heq] at cardR
    omega

/-- Claim C5: for every input part sequence, a zero-length text-delta part is
dropped by the per-roundtrip transform and is never observed on fullStream;
all other parts are forwarded in arrival order. -/
theorem c5_empty_delta_filtering (parts : List TextStreamPart) (fut : Futures)
    (script : Nat → List TextStreamPart) (k : Nat) :
    (transformChunks parts ⟨RoundtripAcc.init, fut, []⟩).out =
      parts.filter (fun p => !isEmptyTextDelta p) ∧
    ((fullStreamOf ⟨(runStreamText script k).out⟩).1.all (fun p => !isEmptyTextDelta p)) = true := by
  constructor
  · rw [transformChunks_out]
    rfl
  · show ((runStreamText script k).out.all (fun p => !isEmptyTextDelta p)) = true
    have hall := runFuel_out_all script k (k + 1) 0 RunState.init (by omega)
    exact hall.trans rfl

/-- Claim C6: forks of the logical stream are independent: for every run,
obtaining and fully reading textStream first still leaves fullStream yielding
the complete, unmodified part sequence afterwards, and the other way round;
consuming one fork does not consume another. The WHATWG tee primitive is
embedded as duplication of the remaining sequence. -/
theorem c6_fork_independence (script : Nat → List TextStreamPart) (k : Nat) :
    (fullStreamOf (textStreamOf ⟨(runStreamText script k).out⟩).2).1 =
      (runStreamText script k).out ∧
    (textStreamOf ⟨(runStreamText script k).out⟩).1 =
      textStreamView ((runStreamText script k).out) ∧
    (textStreamOf (fullStreamOf ⟨(runStreamText script k).out⟩).2).1 =
      textStreamView ((runStreamText script k).out) :=
  ⟨rfl, rfl, rfl⟩

/-- Claim C7: for every logical part sequence, textStream yields exactly the
textDelta payloads of the text-delta parts, in order, up to the first error
part, at which it raises the underlying cause and terminates the view; all
other part types are skipped. -/
theorem c7_text_stream_semantics (parts : List TextStreamPart) :
    textStreamView parts =
      ((parts.takeWhile (fun p => !isErrorPart p)).filterMap textDeltaPayload?,
       parts.findSome? errorCause?) := by
  induction parts with
  | nil => rfl
  | cons p ps ih =>
    cases p <;>
      simp [textStreamView, List.takeWhile_cons, List.filterMap_cons, List.findSome?_cons,
        isErrorPart, errorCause?, textDeltaPayload?, ih]

/-- Claim C8: the data-stream serialization masks error details by default:
with no caller-supplied getErrorMessage function the message serialized for an
error part is the empty string, whatever the cause was; a caller-supplied
function overrides this. -/
theorem c8_error_masking (pre post : List TextStreamPart) (cause : String)
    (f : String → String) :
    toDataStream none (pre ++ TextStreamPart.error cause :: post) =
      toDataStream none pre ++
        ("error", DataStreamPayload.errorMessage "") :: toDataStream none post ∧
    toDataStream (some f) (pre ++ TextStreamPart.error cause :: post) =
      toDataStream (some f) pre ++
        ("error", DataStreamPayload.errorMessage (f cause)) :: toDataStream (some f) post := by
  constructor <;> simp [toDataStream, serializeRecord, formatStreamPart]

/-- Claim C9 counterexample: by default the response-sink adapter
pipeDataStreamToResponse writes exactly one header, the Content-Type, so it
carries no version header identifying the encoding version. -/
theorem c9_counterexample :
    pipeDataStreamHeaders none = [("Content-Type", "text/plain; charset=utf-8")] ∧
    (pipeDataStreamHeaders none).lookup dataStreamVersionHeaderName = none := by
  constructor <;> rfl

/-- Claim C9 amended: responses built by toDataStreamResponse carry
Content-Type text/plain charset utf-8 and the data-stream version header v1,
while pipeDataStreamToResponse writes only the Content-Type header by default
and no version header. -/
theorem c9_amended_headers :
    (toDataStreamResponseHeaders none).lookup "Content-Type" =
      some "text/plain; charset=utf-8" ∧
    (toDataStreamResponseHeaders none).lookup dataStreamVersionHeaderName = some "v1" ∧
    pipeDataStreamHeaders none = [("Content-Type", "text/plain; charset=utf-8")] ∧
    (pipeDataStreamHeaders none).lookup dataStreamVersionHeaderName = none := by
  refine ⟨?_, ?_, ?_, ?_⟩ <;> rfl

/-- Claim C10: maxToolRoundtrips defaults to zero when omitted, and with the
default every streamText run issues exactly one provider call, whatever the
provider streams: the continuation predicate can never hold at ordinal 0. -/
theorem c10_default_single_call (script : Nat → List TextStreamPart) :
    maxToolRoundtripsDefault = 0 ∧
    (runStreamText script maxToolRoundtripsDefault).providerCalls = 1 := by
  refine ⟨rfl, ?_⟩
  show (runFuel 1 script 0 0 RunState.init).providerCalls = 1
  rw [runFuel_succ]
  have hc : shouldContinue (roundtripAcc (script 0)) 0 0 = false := by
    unfold shouldContinue
    rw [show decide ((0 : Nat) < 0) = false from rfl, Bool.and_false]
  rw [if_neg (by simp [hc])]
  rfl

/-- Claim C1 counterexample: in the two-roundtrip run exScript1 with
maxToolRoundtrips 1, the usage future is already resolved during the transform
of roundtrip 0 (before any flush), and the whole run leaves it holding the
usage of roundtrip 0, not the final accumulated usage of the terminal
roundtrip 1. -/
theorem c1_counterexample :
    (transformChunks (exScript1 0) ⟨RoundtripAcc.init, Futures.init, []⟩).fut.usage =
      some ⟨JsNum.num 1, JsNum.num 1, JsNum.num 2⟩ ∧
    (runStreamText exScript1 1).providerCalls = 2 ∧
    (roundtripAcc (exScript1 1)).usage = some ⟨JsNum.num 10, JsNum.num 5, JsNum.num 15⟩ ∧
    (runStreamText exScript1 1).futures.usage =
      some ⟨JsNum.num 1, JsNum.num 1, JsNum.num 2⟩ ∧
    ¬ (runStreamText exScript1 1).futures.usage =
      some ⟨JsNum.num 10, JsNum.num 5, JsNum.num 15⟩ := by
  decide

/-- Claim C1 amended: each aggregate future is single-assignment (first write
wins) and so resolves at most once; usage, finishReason, text, toolCalls and
providerMetadata are all pushed during the transform at the first finish part
processed, before any flush, each with the value captured at that part (the
finish payload for usage, finishReason and providerMetadata, the accumulated
prefix for text and toolCalls); across a run they therefore hold the values
of the first roundtrip that emitted a finish part, not the final accumulated
values. Only the toolResults future is deferred: the transform never touches
it and the terminal flush resolves it with the terminal roundtrip results. -/
theorem c1_amended (parts : List TextStreamPart) (st : TransformState)
    (script : Nat → List TextStreamPart) (k r : Nat)
    (hpend : st.fut.usage = none ∧ st.fut.finishReason = none ∧ st.fut.text = none ∧
      st.fut.toolCalls = none ∧ st.fut.providerMetadata = none) :
    (∀ w v : CompletionTokenUsage, resolveCell (some w) v = some w) ∧
    (transformChunks parts st).fut.usage = (firstFinishInfo parts).map (fun x => x.2.1) ∧
    (transformChunks parts st).fut.finishReason =
      (firstFinishInfo parts).map (fun x => x.1) ∧
    (transformChunks parts st).fut.providerMetadata =
      (firstFinishInfo parts).map (fun x => x.2.2) ∧
    (transformChunks parts st).fut.text =
      (firstFinishInfo parts).map
        (fun _ => ((prefixToFirstFinish parts).foldl accChunk st.acc).text) ∧
    (transformChunks parts st).fut.toolCalls =
      (firstFinishInfo parts).map
        (fun _ => ((prefixToFirstFinish parts).foldl accChunk st.acc).toolCalls) ∧
    (transformChunks parts st).fut.toolResults = st.fut.toolResults ∧
    ((∀ i, i < r → hasFinish (script i) = false) → hasFinish (script r) = true →
      r < (runStreamText script k).providerCalls →
      ((runStreamText script k).futures.usage =
          (firstFinishInfo (script r)).map (fun x => x.2.1) ∧
       (runStreamText script k).futures.finishReason =
          (firstFinishInfo (script r)).map (fun x => x.1) ∧
       (runStreamText script k).futures.providerMetadata =
          (firstFinishInfo (script r)).map (fun x => x.2.2) ∧
       (runStreamText script k).futures.text =
          (firstFinishInfo (script r)).map
            (fun _ => ((prefixToFirstFinish (script r)).foldl accChunk RoundtripAcc.init).text) ∧
       (runStreamText script k).futures.toolCalls =
          (firstFinishInfo (script r)).map
            (fun _ =>
              ((prefixToFirstFinish (script r)).foldl accChunk
                RoundtripAcc.init).toolCalls))) ∧
    (runStreamText script k).futures.toolResults =
      some ((roundtripAcc (script ((runStreamText script k).providerCalls - 1))).toolResults) := by
  obtain ⟨h1, h2, h3, h4, h5⟩ := hpend
  refine ⟨fun w v => resolveCell_some w v,
    transformChunks_fut_usage_of_none parts st h1,
    transformChunks_fut_finishReason_of_none parts st h2,
    transformChunks_fut_providerMetadata_of_none parts st h5,
    transformChunks_fut_text_of_none parts st h3,
    transformChunks_fut_toolCalls_of_none parts st h4,
    transformChunks_fut_toolResults parts st, ?_, ?_⟩
  · intro hpre hfin hreach
    have e0 : RunState.init.providerCalls = 0 := rfl
    have ebr : (runStreamText script k).providerCalls =
        (runFuel (k + 1) script k 0 RunState.init).providerCalls := rfl
    exact runFuel_first_finish script k (k + 1) 0 RunState.init r (by omega)
      rfl rfl rfl rfl rfl (by omega) (fun i hi0 hir => hpre i hir) hfin (by omega)
  · obtain ⟨t, ht1, ht2, ht3, ht4, ht5⟩ :=
      runFuel_terminal script k (k + 1) 0 RunState.init (by omega)
    have e : (runStreamText script k).providerCalls = t + 1 := by
      show (runFuel (k + 1) script k 0 RunState.init).providerCalls = t + 1
      have e0 : RunState.init.providerCalls = 0 := rfl
      omega
    rw [e, Nat.add_sub_cancel]
    show (runFuel (k + 1) script k 0 RunState.init).futures.toolResults = _
    rw [ht4]
    rfl

/-- Claim C1 amended witness at concrete inputs, also discharging the inner
run-level hypotheses at roundtrip 0 of the two-roundtrip run exScript1. -/
theorem c1_amended_witness :
    ((TransformState.mk RoundtripAcc.init Futures.init []).fut.usage = none ∧
     (TransformState.mk RoundtripAcc.init Futures.init []).fut.finishReason = none ∧
     (TransformState.mk RoundtripAcc.init Futures.init []).fut.text = none ∧
     (TransformState.mk RoundtripAcc.init Futures.init []).fut.toolCalls = none ∧
     (TransformState.mk RoundtripAcc.init Futures.init []).fut.providerMetadata = none) ∧
    hasFinish (exScript1 0) = true ∧
    0 < (runStreamText exScript1 1).providerCalls ∧
    ((runStreamText exScript1 1).futures.usage =
        (firstFinishInfo (exScript1 0)).map (fun x => x.2.1) ∧
     (runStreamText exScript1 1).futures.finishReason =
        (firstFinishInfo (exScript1 0)).map (fun x => x.1) ∧
     (runStreamText exScript1 1).futures.providerMetadata =
        (firstFinishInfo (exScript1 0)).map (fun x => x.2.2) ∧
     (runStreamText exScript1 1).futures.text =
        (firstFinishInfo (exScript1 0)).map
          (fun _ => ((prefixToFirstFinish (exScript1 0)).foldl accChunk RoundtripAcc.init).text) ∧
     (runStreamText exScript1 1).futures.toolCalls =
        (firstFinishInfo (exScript1 0)).map
          (fun _ =>
            ((prefixToFirstFinish (exScript1 0)).foldl accChunk
              RoundtripAcc.init).toolCalls)) ∧
    (runStreamText exScript1 1).futures.toolResults =
      some ((roundtripAcc (exScript1 ((runStreamText exScript1 1).providerCalls - 1))).toolResults) := by
  have H := c1_amended (exScript1 1) (TransformState.mk RoundtripAcc.init Futures.init [])
    exScript1 1 0 ⟨rfl, rfl, rfl, rfl, rfl⟩
  refine ⟨⟨rfl, rfl, rfl, rfl, rfl⟩, by decide, by decide, ?_, ?_⟩
  · exact H.2.2.2.2.2.2.2.1 (fun i hi => absurd hi (by omega)) (by decide) (by decide)
  · exact H.2.2.2.2.2.2.2.2

/-- Claim C2 counterexample: in the run exScript2 whose only roundtrip ends
after an error part with no finish part, the run reaches the terminal flush
(stream closed, onFinish invoked once, toolResults resolved), yet the usage,
finishReason, text, toolCalls and providerMetadata futures are all still
pending, contradicting the claim that every aggregate future settles on every
exit path. -/
theorem c2_counterexample :
    (runStreamText exScript2 0).stitchClosed = true ∧
    (runStreamText exScript2 0).onFinishEvents.length = 1 ∧
    (runStreamText exScript2 0).futures.toolResults = some [] ∧
    (runStreamText exScript2 0).futures.usage = none ∧
    (runStreamText exScript2 0).futures.finishReason = none ∧
    (runStreamText exScript2 0).futures.text = none ∧
    (runStreamText exScript2 0).futures.toolCalls = none ∧
    (runStreamText exScript2 0).futures.providerMetadata = none := by
  decide

/-- Claim C2 amended: the toolResults future is settled on every run that
reaches the terminal flush, and onFinish is invoked there exactly once with
the snapshot of the terminal roundtrip, falling back to the not-a-number
sentinel usage and the unknown finish reason when that run observed no finish
part at all. The usage, finishReason, text, toolCalls and providerMetadata
futures are settled only when some processed roundtrip contains a finish part;
they are settled whenever roundtrip 0 contains one, and a run none of whose
processed roundtrips contains a finish part leaves all five permanently
pending. -/
theorem c2_amended (script : Nat → List TextStreamPart) (k : Nat) :
    ((runStreamText script k).futures.toolResults).isSome = true ∧
    (runStreamText script k).onFinishEvents =
      [finishEventOf (roundtripAcc (script ((runStreamText script k).providerCalls - 1)))] ∧
    ((∀ i, i < (runStreamText script k).providerCalls → hasFinish (script i) = false) →
      ((runStreamText script k).futures.usage = none ∧
       (runStreamText script k).futures.finishReason = none ∧
       (runStreamText script k).futures.text = none ∧
       (runStreamText script k).futures.toolCalls = none ∧
       (runStreamText script k).futures.providerMetadata = none ∧
       (finishEventOf (roundtripAcc
          (script ((runStreamText script k).providerCalls - 1)))).usage = nanUsage ∧
       (finishEventOf (roundtripAcc
          (script ((runStreamText script k).providerCalls - 1)))).finishReason = "unknown")) ∧
    ((((runStreamText script k).futures.usage).isSome = true ∨
      ((runStreamText script k).futures.finishReason).isSome = true ∨
      ((runStreamText script k).futures.text).isSome = true ∨
      ((runStreamText script k).futures.toolCalls).isSome = true ∨
      ((runStreamText script k).futures.providerMetadata).isSome = true) →
      ∃ i, i < (runStreamText script k).providerCalls ∧ hasFinish (script i) = true) ∧
    (hasFinish (script 0) = true →
      (((runStreamText script k).futures.usage).isSome = true ∧
       ((runStreamText script k).futures.finishReason).isSome = true ∧
       ((runStreamText script k).futures.text).isSome = true ∧
       ((runStreamText script k).futures.toolCalls).isSome = true ∧
       ((runStreamText script k).futures.providerMetadata).isSome = true)) := by
  have e0 : RunState.init.providerCalls = 0 := rfl
  have ebr : (runStreamText script k).providerCalls =
      (runFuel (k + 1) script k 0 RunState.init).providerCalls := rfl
  obtain ⟨t, htle, ht2, ht3, ht4, ht5⟩ :=
    runFuel_terminal script k (k + 1) 0 RunState.init (by omega)
  have et : (runStreamText script k).providerCalls = t + 1 := by
    rw [ebr]
    omega
  refine ⟨?_, ?_, ?_, ?_, ?_⟩
  · show ((runFuel (k + 1) script k 0 RunState.init).futures.toolResults).isSome = true
    rw [ht4]
    rfl
  · rw [et, Nat.add_sub_cancel]
    show (runFuel (k + 1) script k 0 RunState.init).onFinishEvents = _
    rw [ht3]
    rfl
  · intro hpre
    obtain ⟨p1, p2, p3, p4, p5⟩ :=
      runFuel_no_finish_pending script k (k + 1) 0 RunState.init (by omega) rfl rfl rfl rfl rfl
        (fun i hi0 hib => hpre i (by omega))
    have hnn : hasFinish (script t) = false := hpre t (by omega)
    obtain ⟨qu, qr⟩ := roundtripAcc_of_no_finish (script t) hnn
    rw [et, Nat.add_sub_cancel]
    refine ⟨p1, p2, p3, p4, p5, ?_, ?_⟩
    · show ((roundtripAcc (script t)).usage.getD nanUsage) = nanUsage
      rw [qu]
      rfl
    · show ((roundtripAcc (script t)).finishReason.getD "unknown") = "unknown"
      rw [qr]
      rfl
  · intro hdisj
    by_contra hnex
    push_neg at hnex
    have hpre : ∀ i, i < (runStreamText script k).providerCalls →
        hasFinish (script i) = false := by
      intro i hi
      cases hb : hasFinish (script i)
      · rfl
      · exact absurd hb (hnex i hi)
    obtain ⟨p1, p2, p3, p4, p5⟩ :=
      runFuel_no_finish_pending script k (k + 1) 0 RunState.init (by omega) rfl rfl rfl rfl rfl
        (fun i hi0 hib => hpre i (by omega))
    have q1 : (runStreamText script k).futures.usage = none := p1
    have q2 : (runStreamText script k).futures.finishReason = none := p2
    have q3 : (runStreamText script k).futures.text = none := p3
    have q4 : (runStreamText script k).futures.toolCalls = none := p4
    have q5 : (runStreamText script k).futures.providerMetadata = none := p5
    rcases hdisj with hd | hd | hd | hd | hd
    · rw [q1] at hd; simp at hd
    · rw [q2] at hd; simp at hd
    · rw [q3] at hd; simp at hd
    · rw [q4] at hd; simp at hd
    · rw [q5] at hd; simp at hd
  · intro h0
    have hone : 1 ≤ (runFuel (k + 1) script k 0 RunState.init).providerCalls := by
      have := runFuel_calls_ge script k (k + 1) 0 RunState.init (by omega)
      omega
    obtain ⟨H1, H2, H3, H4, H5⟩ :=
      runFuel_first_finish script k (k + 1) 0 RunState.init 0 (by omega) rfl rfl rfl rfl rfl
        (Nat.le_refl 0) (fun i hi1 hi2 => absurd hi2 (by omega)) h0 (by omega)
    have hfs : (firstFinishInfo (script 0)).isSome = true := by
      rw [← hasFinish_iff_firstFinishInfo]
      exact h0
    obtain ⟨v, hv⟩ := Option.isSome_iff_exists.mp hfs
    have Q1 : (runStreamText script k).futures.usage =
        (firstFinishInfo (script 0)).map (fun x => x.2.1) := H1
    have Q2 : (runStreamText script k).futures.finishReason =
        (firstFinishInfo (script 0)).map (fun x => x.1) := H2
    have Q3 : (runStreamText script k).futures.providerMetadata =
        (firstFinishInfo (script 0)).map (fun x => x.2.2) := H3
    have Q4 : (runStreamText script k).futures.text =
        (firstFinishInfo (script 0)).map
          (fun _ => ((prefixToFirstFinish (script 0)).foldl accChunk RoundtripAcc.init).text) :=
      H4
    have Q5 : (runStreamText script k).futures.toolCalls =
        (firstFinishInfo (script 0)).map
          (fun _ =>
            ((prefixToFirstFinish (script 0)).foldl accChunk RoundtripAcc.init).toolCalls) := H5
    refine ⟨?_, ?_, ?_, ?_, ?_⟩
    · rw [Q1, hv]; rfl
    · rw [Q2, hv]; rfl
    · rw [Q4, hv]; rfl
    · rw [Q5, hv]; rfl
    · rw [Q3, hv]; rfl

/-- Claim C2 amended witness at concrete inputs: the no-finish run exScript2
exercises the pending branch and the sentinel onFinish payload, and the
finishing run exScript1 exercises the settled branch. -/
theorem c2_amended_witness :
    (∀ i, i < (runStreamText exScript2 0).providerCalls → hasFinish (exScript2 i) = false) ∧
    ((runStreamText exScript2 0).futures.usage = none ∧
     (runStreamText exScript2 0).futures.finishReason = none ∧
     (runStreamText exScript2 0).futures.text = none ∧
     (runStreamText exScript2 0).futures.toolCalls = none ∧
     (runStreamText exScript2 0).futures.providerMetadata = none ∧
     (finishEventOf (roundtripAcc
        (exScript2 ((runStreamText exScript2 0).providerCalls - 1)))).usage = nanUsage ∧
     (finishEventOf (roundtripAcc
        (exScript2 ((runStreamText exScript2 0).providerCalls - 1)))).finishReason
       = "unknown") ∧
    hasFinish (exScript1 0) = true ∧
    (((runStreamText exScript1 1).futures.usage).isSome = true ∧
     ((runStreamText exScript1 1).futures.finishReason).isSome = true ∧
     ((runStreamText exScript1 1).futures.text).isSome = true ∧
     ((runStreamText exScript1 1).futures.toolCalls).isSome = true ∧
     ((runStreamText exScript1 1).futures.providerMetadata).isSome = true) := by
  refine ⟨by decide, (c2_amended exScript2 0).2.2.1 (by decide), by decide,
    (c2_amended exScript1 1).2.2.2.2 (by decide)⟩

/-- Claim C3: on flush a new roundtrip starts if and only if the roundtrip had
at least one tool call, every tool call has a correlated tool result (under
the correlation invariant of the tool execution transform, stated as the
duplicate-freedom and reference hypotheses on the call identifiers), and the
roundtrip ordinal is strictly below the configured maximum; consequently with
maxToolRoundtrips k every run issues at most k + 1 provider calls. -/
theorem c3_continuation_predicate_and_cap (script : Nat → List TextStreamPart) (k r : Nat)
    (hC : ((roundtripAcc (script r)).toolCalls.map ToolCallPart.toolCallId).Nodup)
    (hR : ((roundtripAcc (script r)).toolResults.map ToolResultPart.toolCallId).Nodup)
    (hsub : ∀ x ∈ (roundtripAcc (script r)).toolResults.map ToolResultPart.toolCallId,
        x ∈ (roundtripAcc (script r)).toolCalls.map ToolCallPart.toolCallId) :
    (runStreamText script k).providerCalls ≤ k + 1 ∧
    (r + 1 < (runStreamText script k).providerCalls ↔
      (r < (runStreamText script k).providerCalls ∧
        ((roundtripAcc (script r)).toolCalls ≠ [] ∧
         (∀ c ∈ (roundtripAcc (script r)).toolCalls,
            ∃ res ∈ (roundtripAcc (script r)).toolResults, res.toolCallId = c.toolCallId) ∧
         r < k))) := by
  have hbase := runFuel_calls_iff script k (k + 1) 0 RunState.init (by omega)
  have ebr : (runStreamText script k).providerCalls =
      (runFuel (k + 1) script k 0 RunState.init).providerCalls := rfl
  have e0 : RunState.init.providerCalls = 0 := rfl
  have hcalls : ∀ n : Nat, (n + 1 ≤ (runStreamText script k).providerCalls ↔
      ∀ i, i < n → shouldContinue (roundtripAcc (script i)) i k = true) := by
    intro n
    have h0 := hbase n
    constructor
    · intro hle i hi
      have hx := h0.mp (by omega) i hi
      simpa using hx
    · intro hall
      have hx := h0.mpr (fun i hi => by simpa using hall i hi)
      omega
  constructor
  · by_contra hgt
    push_neg at hgt
    have hall := (hcalls (k + 1)).mp (by omega)
    have hlt := shouldContinue_lt _ _ _ (hall k (by omega))
    omega
  · constructor
    · intro hlt
      have hall := (hcalls (r + 1)).mp (by omega)
      obtain ⟨h1, h2⟩ :=
        (forall_lt_peel (fun i => shouldContinue (roundtripAcc (script i)) i k = true) r).mp hall
      have hrc : r < (runStreamText script k).providerCalls := by
        have := (hcalls r).mpr h1
        omega
      simp only [shouldContinue, Bool.and_eq_true, decide_eq_true_eq] at h2
      obtain ⟨⟨hlen, heqn⟩, hrk⟩ := h2
      refine ⟨hrc, ?_, ?_, hrk⟩
      · intro hnil
        rw [hnil] at hlen
        simp at hlen
      · exact (count_eq_iff_all_have_results _ _ hC hR hsub).mp heqn
    · rintro ⟨hrc, hnil, hres, hrk⟩
      have hP : shouldContinue (roundtripAcc (script r)) r k = true := by
        simp only [shouldContinue, Bool.and_eq_true, decide_eq_true_eq]
        exact ⟨⟨List.length_pos.mpr hnil,
          (count_eq_iff_all_have_results _ _ hC hR hsub).mpr hres⟩, hrk⟩
      have h1 := (hcalls r).mp (by omega)
      have hall :=
        (forall_lt_peel (fun i => shouldContinue (roundtripAcc (script i)) i k = true) r).mpr
          ⟨h1, hP⟩
      have := (hcalls (r + 1)).mpr hall
      omega

/-- Claim C3 witness at concrete inputs. -/
theorem c3_witness :
    (((roundtripAcc (exScript1 0)).toolCalls.map ToolCallPart.toolCallId).Nodup ∧
     ((roundtripAcc (exScript1 0)).toolResults.map ToolResultPart.toolCallId).Nodup ∧
     (∀ x ∈ (roundtripAcc (exScript1 0)).toolResults.map ToolResultPart.toolCallId,
        x ∈ (roundtripAcc (exScript1 0)).toolCalls.map ToolCallPart.toolCallId)) ∧
    ((runStreamText exScript1 1).providerCalls ≤ 1 + 1 ∧
      (0 + 1 < (runStreamText exScript1 1).providerCalls ↔
        (0 < (runStreamText exScript1 1).providerCalls ∧
          ((roundtripAcc (exScript1 0)).toolCalls ≠ [] ∧
           (∀ c ∈ (roundtripAcc (exScript1 0)).toolCalls,
              ∃ res ∈ (roundtripAcc (exScript1 0)).toolResults,
                res.toolCallId = c.toolCallId) ∧
           0 < 1)))) :=
  ⟨⟨by decide, by decide, by decide⟩,
    c3_continuation_predicate_and_cap exScript1 1 0 (by decide) (by decide) (by decide)⟩

/-- Claim C4: the terminal onFinish callback is invoked exactly once; if the
terminal roundtrip stream ended without a finish part the event carries the
not-a-number sentinel usage and the finish reason unknown, otherwise it
carries the captured usage and finish reason. -/
theorem c4_terminal_callback (script : Nat → List TextStreamPart) (k : Nat) :
    (runStreamText script k).onFinishEvents =
      [finishEventOf (roundtripAcc (script ((runStreamText script k).providerCalls - 1)))] ∧
    (hasFinish (script ((runStreamText script k).providerCalls - 1)) = false →
      (finishEventOf (roundtripAcc
          (script ((runStreamText script k).providerCalls - 1)))).usage = nanUsage ∧
      (finishEventOf (roundtripAcc
          (script ((runStreamText script k).providerCalls - 1)))).finishReason = "unknown") ∧
    (∀ (u : CompletionTokenUsage) (rs : String),
      (roundtripAcc (script ((runStreamText script k).providerCalls - 1))).usage = some u →
      (roundtripAcc (script ((runStreamText script k).providerCalls - 1))).finishReason
        = some rs →
      (finishEventOf (roundtripAcc
          (script ((runStreamText script k).providerCalls - 1)))).usage = u ∧
      (finishEventOf (roundtripAcc
          (script ((runStreamText script k).providerCalls - 1)))).finishReason = rs) := by
  obtain ⟨t, ht1, ht2, ht3, ht4, ht5⟩ :=
    runFuel_terminal script k (k + 1) 0 RunState.init (by omega)
  have e : (runStreamText script k).providerCalls = t + 1 := by
    show (runFuel (k + 1) script k 0 RunState.init).providerCalls = t + 1
    have e0 : RunState.init.providerCalls = 0 := rfl
    omega
  rw [e, Nat.add_sub_cancel]
  refine ⟨?_, ?_, ?_⟩
  · show (runFuel (k + 1) script k 0 RunState.init).onFinishEvents = _
    rw [ht3]
    rfl
  · intro hnf
    obtain ⟨hu, hr⟩ := roundtripAcc_of_no_finish (script t) hnf
    constructor
    · show ((roundtripAcc (script t)).usage.getD nanUsage) = nanUsage
      rw [hu]
      rfl
    · show ((roundtripAcc (script t)).finishReason.getD "unknown") = "unknown"
      rw [hr]
      rfl
  · intro u rs hu hr
    constructor
    · show ((roundtripAcc (script t)).usage.getD nanUsage) = u
      rw [hu]
      rfl
    · show ((roundtripAcc (script t)).finishReason.getD "unknown") = rs
      rw [hr]
      rfl

/-- Claim C4 witness at concrete inputs: the no-finish roundtrip of exScript2
yields the sentinel usage and the unknown reason. -/
theorem c4_witness :
    hasFinish (exScript2 ((runStreamText exScript2 0).providerCalls - 1)) = false ∧
    ((finishEventOf (roundtripAcc
        (exScript2 ((runStreamText exScript2 0).providerCalls - 1)))).usage = nanUsage ∧
     (finishEventOf (roundtripAcc
        (exScript2 ((runStreamText exScript2 0).providerCalls - 1)))).finishReason
       = "unknown") :=
  ⟨by decide, (c4_terminal_callback exScript2 0).2.1 (by decide)⟩

end StreamTextModel
